import Mathlib

/-!
Verification of the JSON-RPC stdio message server (`pgsqltoolsservice/server.py`).

The embedding models the transport and dispatch engine of the server:

* byte streams are `List Char` (the source is Python-2-style code where `str`
  is a byte string, so one `Char` models one byte and Python's `len` is the
  list length);
* the frame codec (`Server.handle_output`, `Server.read_headers`,
  `Server.read_content`) is translated line by line from the source;
* the dispatch table (the `jsonrpc` package's `dispatcher` dict) is an
  association list with Python-dict assignment semantics (overwrite in place,
  append new keys at the end);
* the server state (`is_shutdown`, `should_exit`, `threads`, the dispatcher,
  and the accumulated bytes written to the output stream) is an explicit
  record threaded through every operation.
-/

/-- Python's `str.strip()` whitespace set: space, tab, newline, carriage
return, vertical tab, form feed. -/
def isPySpace (c : Char) : Bool :=
  decide (c.toNat = 32 ∨ c.toNat = 9 ∨ c.toNat = 10 ∨ c.toNat = 13 ∨ c.toNat = 11 ∨ c.toNat = 12)

/-- ASCII decimal digit test ('0' is 48, '9' is 57). -/
def isDigitChar (c : Char) : Bool :=
  decide (48 ≤ c.toNat ∧ c.toNat ≤ 57)

/-- Python's `str.strip()`: drop leading and trailing whitespace. -/
def pyStrip (s : List Char) : List Char :=
  ((s.dropWhile isPySpace).reverse.dropWhile isPySpace).reverse

/-- Python's `line.split(': ')`: split on every non-overlapping occurrence of
the two-character separator `": "`, scanning left to right. -/
def splitSep : List Char → List (List Char)
  | [] => [[]]
  | [c] => [[c]]
  | c :: d :: rest =>
    if c = ':' ∧ d = ' ' then
      [] :: splitSep rest
    else
      match splitSep (d :: rest) with
      | [] => [[c]]
      | l :: ls => (c :: l) :: ls

/-- The ASCII character of a decimal digit. -/
def digitChar (d : Nat) : Char :=
  if d = 0 then '0' else if d = 1 then '1' else if d = 2 then '2' else if d = 3 then '3'
  else if d = 4 then '4' else if d = 5 then '5' else if d = 6 then '6' else if d = 7 then '7'
  else if d = 8 then '8' else '9'

/-- Fueled decimal printer (most significant digit first); the fuel only
bounds the recursion depth and is irrelevant once it exceeds the argument. -/
def natDigitsAux : Nat → Nat → List Char
  | 0, _ => []
  | fuel + 1, n =>
    if n < 10 then [digitChar n] else natDigitsAux fuel (n / 10) ++ [digitChar (n % 10)]

/-- Decimal representation of a natural number, as produced by Python's
`'{}'.format(n)` for a non-negative `len(...)`. -/
def natDigits (n : Nat) : List Char := natDigitsAux (n + 1) n

/-- Numeric value of a digit string (most significant digit first). -/
def digitsVal (l : List Char) : Nat :=
  l.foldl (fun acc c => acc * 10 + (c.toNat - 48)) 0

/-- Errors a frame can raise inside `Server.handle_input`: `keyError` is
Python's `KeyError` from `headers['Content-Length']`, `valueError` is the
`ValueError` from `int(...)` on a non-numeric string, `indexError` is the
`IndexError` from `parts[1]` on a header line without `": "`. -/
inductive FrameErr where
  | keyError
  | valueError
  | indexError
deriving DecidableEq

/-- Python's `int(string)`: strip whitespace, accept an optional single sign
followed by at least one decimal digit, raise `ValueError` otherwise. -/
def pyInt (s : List Char) : Except FrameErr Int :=
  match pyStrip s with
  | [] => .error .valueError
  | c :: cs =>
    if c = '-' then
      if cs ≠ [] ∧ cs.all isDigitChar then .ok (-(digitsVal cs : Int)) else .error .valueError
    else if c = '+' then
      if cs ≠ [] ∧ cs.all isDigitChar then .ok ((digitsVal cs : Int)) else .error .valueError
    else
      if (c :: cs).all isDigitChar then .ok ((digitsVal (c :: cs) : Int)) else .error .valueError

/-- Python dict assignment `d[k] = v`: overwrite in place if the key exists,
append at the end otherwise (insertion order is preserved). -/
def dictInsert [DecidableEq κ] : List (κ × α) → κ → α → List (κ × α)
  | [], k, v => [(k, v)]
  | (k', v') :: rest, k, v =>
    if k' = k then (k, v) :: rest else (k', v') :: dictInsert rest k v

/-- Python dict lookup `d[k]` (as an `Option`; `none` models `KeyError` /
the jsonrpc dispatcher's "method not found"). -/
def dictLookup [DecidableEq κ] : List (κ × α) → κ → Option α
  | [], _ => none
  | (k', v') :: rest, k => if k' = k then some v' else dictLookup rest k

/-- The handlers that `server.py` ever stores in the jsonrpc `dispatcher`:
the bound methods of the `Server` object, the `ConnectionService` request
handlers, and the module-level `version` and `capabilities` functions. -/
inductive Handler where
  | initializeH
  | connect
  | disconnect
  | shutdown
  | exit
  | echo
  | version
  | capabilities
  | wait
deriving DecidableEq

/-- The jsonrpc dispatcher: a dict from method name to handler. -/
abbrev Dispatcher := List (String × Handler)

/-- Header dict built by `Server.read_headers`. -/
abbrev Headers := List (List Char × List Char)

/-- The mutable state of a `Server` object (`__init__` fields), plus the
bytes written so far to its output stream. -/
structure ServerState where
  is_shutdown : Bool
  should_exit : Bool
  threads : List Nat
  dispatcher : Dispatcher
  output : List Char
deriving DecidableEq

/-- The parameters of `Server.initialize` (all optional, all unused by the
body). -/
structure InitializeParams where
  processId : Option String
  rootPath : Option String
  rootUri : Option String
  initializationOptions : Option String
  capabilities : Option String
  trace : Option String

/-- Modelled from the spec: the `ServerCapabilities` contract object from
`contracts.initialization` (not under `src/`); the spec gives its fields and
values, `textDocumentSync = 2` being `TextDocumentSyncKind.INCREMENTAL`. -/
structure ServerCapabilities where
  textDocumentSync : Nat
  definitionProvider : Bool
  referencesProvider : Bool
  documentFormattingProvider : Bool
  documentRangeFormattingProvider : Bool
  documentHighlightProvider : Bool
  hoverProvider : Bool
  completionProvider : Option Nat
deriving DecidableEq

/-- Modelled from the spec: the `InitializeResult` contract object from
`contracts.initialization` (not under `src/`); `utils.object_to_dictionary`
(also not under `src/`) is a pure conversion, so the dictionary the server
returns is identified with this structured value. -/
structure InitializeResult where
  capabilities : ServerCapabilities
deriving DecidableEq

/-- The capability descriptor built inside `Server.initialize` (values from
the source's constructor call; spec: `textDocumentSync: 2 (Incremental)`,
every optional capability `false`, `completionProvider: null`). -/
def initializeResultValue : InitializeResult :=
  ⟨⟨2, false, false, false, false, false, false, none⟩⟩

/-- `Server.__init__`: both lifecycle flags start false, the thread set is
empty, nothing has been written, and the dispatcher holds the single entry
`dispatcher['initialize'] = self.initialize`. -/
def initialServer : ServerState :=
  { is_shutdown := false
    should_exit := false
    threads := []
    dispatcher := dictInsert [] "initialize" Handler.initializeH
    output := [] }

/-- `Server.initialize_dispatcher`: bind the eight domain methods, in source
order, with Python dict-assignment semantics. -/
def Server.initialize_dispatcher (d : Dispatcher) : Dispatcher :=
  dictInsert (dictInsert (dictInsert (dictInsert (dictInsert (dictInsert (dictInsert (dictInsert d
    "connection/connect" Handler.connect)
    "connection/disconnect" Handler.disconnect)
    "shutdown" Handler.shutdown)
    "exit" Handler.exit)
    "echo" Handler.echo)
    "version" Handler.version)
    "capabilities/list" Handler.capabilities)
    "wait" Handler.wait

/-- `Server.initialize`: expand the dispatcher and return the capability
descriptor; the six parameters are accepted but never read. -/
def Server.initializeOp (_params : InitializeParams) (st : ServerState) :
    ServerState × InitializeResult :=
  ({ st with dispatcher := Server.initialize_dispatcher st.dispatcher }, initializeResultValue)

/-- `Server.shutdown`: set `is_shutdown`. -/
def Server.shutdown (st : ServerState) : ServerState :=
  { st with is_shutdown := true }

/-- `Server.exit`: set `should_exit`. -/
def Server.exit (st : ServerState) : ServerState :=
  { st with should_exit := true }

/-- `Server.wait`: `thread.join()` on every tracked thread.  The second
component records the joins performed (one per tracked handle, in iteration
order); the body never modifies `self.threads` or any other field. -/
def Server.wait (st : ServerState) : ServerState × List Nat :=
  (st, st.threads)

/-- `Server.register_thread`: `self.threads.add(thread)` — set insertion,
a no-op when the handle is already tracked. -/
def Server.register_thread (thread : Nat) (st : ServerState) : ServerState :=
  { st with threads := if thread ∈ st.threads then st.threads else st.threads ++ [thread] }

/-- `Server.echo`: write the argument verbatim to the output stream, with no
framing. -/
def Server.echo (arg : List Char) (st : ServerState) : ServerState :=
  { st with output := st.output ++ arg }

/-- The newline pair chosen by `Server.handle_output`:
`'\n\n' if sys.platform == 'win32' else '\r\n\r\n'`. -/
def newlines (platform : String) : List Char :=
  if platform = "win32" then "\n\n".toList else "\r\n\r\n".toList

/-- `Server.handle_output` (pure frame encoder): prepend
`Content-Length: {len(s)}{newlines}` to the body. -/
def Server.handle_output (platform : String) (output_string : List Char) : List Char :=
  "Content-Length: ".toList ++ natDigits output_string.length
    ++ newlines platform ++ output_string

/-- `Server.handle_output` as a state operation: append the encoded frame to
the bytes written on the output stream (write then flush). -/
def Server.handle_output_st (platform : String) (output_string : List Char)
    (st : ServerState) : ServerState :=
  { st with output := st.output ++ Server.handle_output platform output_string }

/-- The JSON event text built by `Server.send_event`
(`'{"jsonrpc":"2.0","method":"%s","params":%s}'`), with the params already
serialized by `json.dumps`. -/
def eventString (event_name event_params : List Char) : List Char :=
  "\x7b\"jsonrpc\":\"2.0\",\"method\":\"".toList ++ event_name
    ++ "\",\"params\":".toList ++ event_params ++ "\x7d".toList

/-- `Server.send_event`: format the event and pass it through
`handle_output`. -/
def Server.send_event (platform : String) (event_name event_params : List Char)
    (st : ServerState) : ServerState :=
  Server.handle_output_st platform (eventString event_name event_params) st

/-- The body of `Server.read_headers`, with the `input_stream.readline()`
calls fused into a single left-to-right scan of the stream: characters are
accumulated (in reverse) into the current line until a `'\n'` (the character
`readline` stops after) or the end of the stream (where `readline` returns
the partial last line, and thereafter `''`).  Each completed line is
stripped; a blank line returns the headers read so far together with the
unconsumed rest of the stream; otherwise the line is split on `": "` and
`headers[parts[0]] = parts[1]` is performed (`IndexError` when there is no
separator). -/
def read_headers_go : List Char → List Char → Headers → Except FrameErr (Headers × List Char)
  | [], acc, headers =>
    if pyStrip acc.reverse = [] then .ok (headers, [])
    else
      match splitSep (pyStrip acc.reverse) with
      | p0 :: p1 :: _ => .ok (dictInsert headers p0 p1, [])
      | _ => .error .indexError
  | c :: rest, acc, headers =>
    if c = '\n' then
      if pyStrip (c :: acc).reverse = [] then .ok (headers, rest)
      else
        match splitSep (pyStrip (c :: acc).reverse) with
        | p0 :: p1 :: _ => read_headers_go rest [] (dictInsert headers p0 p1)
        | _ => .error .indexError
    else read_headers_go rest (c :: acc) headers

/-- `Server.read_headers`: read header lines from the stream until a blank
line, returning the header dict and the unconsumed rest of the stream. -/
def Server.read_headers (stream : List Char) : Except FrameErr (Headers × List Char) :=
  read_headers_go stream [] []

/-- `Server.read_content`: `input_stream.read(length)`.  Python's
`read(n)` returns at most `n` characters, and reads to the end of the
stream when `n` is negative. -/
def Server.read_content (length : Int) (stream : List Char) : List Char × List Char :=
  if length < 0 then (stream, [])
  else (stream.take length.toNat, stream.drop length.toNat)

/-- The length extraction on line 149 of `server.py`:
`int(headers['Content-Length'])` — `KeyError` when the header is missing,
`ValueError` when its value is not numeric. -/
def getContentLength (headers : Headers) : Except FrameErr Int :=
  match dictLookup headers "Content-Length".toList with
  | none => .error .keyError
  | some v => pyInt v

/-- One frame decode as performed at the top of each `handle_input`
iteration: `read_headers`, then `read_content(int(headers['Content-Length']))`.
Returns the declared length, the body, and the unconsumed stream. -/
def decode_frame (stream : List Char) : Except FrameErr (Int × List Char × List Char) :=
  match Server.read_headers stream with
  | .error e => .error e
  | .ok (headers, rest) =>
    match getContentLength headers with
    | .error e => .error e
    | .ok n =>
      let bodyRest := Server.read_content n rest
      .ok (n, bodyRest.1, bodyRest.2)

/-- Outcome of a bounded run of the `handle_input` frame loop. -/
inductive LoopResult where
  | exited (code : Nat) (st : ServerState)
  | fuelOut (st : ServerState) (rest : List Char)
deriving DecidableEq

/-- `Server.handle_input`, at the framing level.  The JSON-RPC layer
(`JSONRPCResponseManager.handle`, an external library) is a parameter `rpc`
mapping the raw body and current state to the next state.  Each iteration
decodes one frame exactly as the source does, hands the body to `rpc`, then
checks `should_exit` and calls `sys.exit(0 if self.is_shutdown else 1)` when
it is set.  `fuel` bounds the number of iterations observed; framing errors
propagate out as `Except.error` — nothing in the loop catches them. -/
def Server.handle_input (rpc : List Char → ServerState → ServerState) :
    Nat → List Char → ServerState → Except FrameErr LoopResult
  | 0, stream, st => .ok (.fuelOut st stream)
  | fuel + 1, stream, st =>
    match Server.read_headers stream with
    | .error e => .error e
    | .ok (headers, rest) =>
      match getContentLength headers with
      | .error e => .error e
      | .ok n =>
        let bodyRest := Server.read_content n rest
        let st' := rpc bodyRest.1 st
        if st'.should_exit then .ok (.exited (if st'.is_shutdown then 0 else 1) st')
        else Server.handle_input rpc fuel bodyRest.2 st'

/-- A parsed JSON-RPC request, as resolved by the external jsonrpc layer:
a method name and (for `echo`) a string argument. -/
structure Request where
  method : String
  arg : List Char

/-- The state effect of invoking a bound handler.  `initialize` expands the
dispatcher; `shutdown` and `exit` set their flags; `echo` writes its argument
to the output stream; `wait` joins the tracked threads without modifying
state; `version` and `capabilities` build pure results.  Modelled from the
spec for the two `ConnectionService` handlers (that service lives outside
`src/`): they are external collaborators that do not touch the server's
lifecycle state (spec §3: `is_shutdown` is set true only by `shutdown`,
`should_exit` only by `exit`). -/
def applyHandler (h : Handler) (r : Request) (st : ServerState) : ServerState :=
  match h with
  | .initializeH => (Server.initializeOp ⟨none, none, none, none, none, none⟩ st).1
  | .connect => st
  | .disconnect => st
  | .shutdown => Server.shutdown st
  | .exit => Server.exit st
  | .echo => Server.echo r.arg st
  | .version => st
  | .capabilities => st
  | .wait => (Server.wait st).1

/-- Outcome of the dispatch-level server loop: either the process terminated
through `sys.exit` with the given code, or the request stream ran out.  The
`invoked` list records, in order, every handler the jsonrpc layer invoked up
to that point. -/
inductive LoopOutcome where
  | exited (code : Nat) (st : ServerState) (invoked : List Handler)
  | ranOut (st : ServerState) (invoked : List Handler)
deriving DecidableEq

/-- Final server state of a loop outcome. -/
def LoopOutcome.finalState : LoopOutcome → ServerState
  | .exited _ st _ => st
  | .ranOut st _ => st

/-- Handlers invoked during a loop run. -/
def LoopOutcome.invoked : LoopOutcome → List Handler
  | .exited _ _ inv => inv
  | .ranOut _ inv => inv

/-- Whether a handler occurs in an invocation trace. -/
def hasHandler (target : Handler) : List Handler → Bool
  | [] => false
  | h :: t => if h = target then true else hasHandler target t

/-- `Server.handle_input`, at the dispatch level: each frame carries one
already-parsed request; the external jsonrpc layer resolves the method
against the dispatcher, invokes the bound handler ("method not found" is
answered with an error response and invokes nothing, and the loop keeps
going — spec §7), and after each processed frame the loop checks
`should_exit` and terminates the process with
`sys.exit(0 if self.is_shutdown else 1)`. -/
def handle_input_requests : List Request → ServerState → LoopOutcome
  | [], st => .ranOut st []
  | r :: rs, st =>
    match dictLookup st.dispatcher r.method with
    | none =>
      if st.should_exit then .exited (if st.is_shutdown then 0 else 1) st []
      else handle_input_requests rs st
    | some h =>
      if (applyHandler h r st).should_exit then
        .exited (if (applyHandler h r st).is_shutdown then 0 else 1) (applyHandler h r st) [h]
      else
        match handle_input_requests rs (applyHandler h r st) with
        | .exited c stf inv => .exited c stf (h :: inv)
        | .ranOut stf inv => .ranOut stf (h :: inv)

/-- The module-level `version` function: the literal string `"0"`. -/
def version : List Char := "0".toList

/-- The list of domain method names bound by `initialize_dispatcher`. -/
def domainMethods : List String :=
  ["connection/connect", "connection/disconnect", "shutdown", "exit", "echo",
   "version", "capabilities/list", "wait"]

/-! ### Dictionary lemmas -/

theorem dictLookup_insert_self [DecidableEq κ] (d : List (κ × α)) (k : κ) (v : α) :
    dictLookup (dictInsert d k v) k = some v := by
  induction d with
  | nil => simp [dictInsert, dictLookup]
  | cons hd tl ih =>
    obtain ⟨k', v'⟩ := hd
    by_cases hk : k' = k
    · simp [dictInsert, hk, dictLookup]
    · simp [dictInsert, hk, dictLookup, ih]

theorem dictLookup_insert_ne [DecidableEq κ] (d : List (κ × α)) (k m : κ) (v : α)
    (h : k ≠ m) : dictLookup (dictInsert d k v) m = dictLookup d m := by
  induction d with
  | nil => simp [dictInsert, dictLookup, h]
  | cons hd tl ih =>
    obtain ⟨k', v'⟩ := hd
    by_cases hk : k' = k
    · subst hk
      simp [dictInsert, dictLookup, h]
    · simp [dictInsert, hk, dictLookup, ih]

theorem dictInsert_of_lookup [DecidableEq κ] (d : List (κ × α)) (k : κ) (v : α)
    (h : dictLookup d k = some v) : dictInsert d k v = d := by
  induction d with
  | nil => simp [dictLookup] at h
  | cons hd tl ih =>
    obtain ⟨k', v'⟩ := hd
    by_cases hk : k' = k
    · subst hk
      simp [dictLookup] at h
      simp [dictInsert, h]
    · simp [dictLookup, hk] at h
      simp [dictInsert, hk, ih h]

/-! ### Invocation-trace lemmas -/

theorem hasHandler_append (target : Handler) (a b : List Handler) :
    hasHandler target (a ++ b) = (hasHandler target a || hasHandler target b) := by
  induction a with
  | nil => simp [hasHandler]
  | cons h t ih =>
    by_cases hh : h = target
    · simp [hasHandler, hh]
    · simp [hasHandler, hh, ih]

theorem hasHandler_iff_mem (target : Handler) (l : List Handler) :
    hasHandler target l = true ↔ target ∈ l := by
  induction l with
  | nil => simp [hasHandler]
  | cons h t ih =>
    by_cases hh : h = target
    · simp [hasHandler, hh]
    · simp [hasHandler, hh, ih, Ne.symm hh]

/-! ### Character-class lemmas -/

theorem isDigitChar_not_space {c : Char} (h : isDigitChar c = true) : isPySpace c = false := by
  simp [isDigitChar, decide_eq_true_eq] at h
  simp [isPySpace, decide_eq_false_iff_not]
  omega

theorem isDigitChar_ne_colon {c : Char} (h : isDigitChar c = true) : c ≠ ':' := by
  intro hc
  subst hc
  simp [isDigitChar, decide_eq_true_eq] at h

theorem not_space_ne_newline {c : Char} (h : isPySpace c = false) : c ≠ '\n' := by
  intro hc
  subst hc
  simp [isPySpace] at h

theorem isDigitChar_ne_newline {c : Char} (h : isDigitChar c = true) : c ≠ '\n' :=
  not_space_ne_newline (isDigitChar_not_space h)

theorem isDigitChar_ne_minus {c : Char} (h : isDigitChar c = true) : c ≠ '-' := by
  intro hc
  subst hc
  simp [isDigitChar, decide_eq_true_eq] at h

theorem isDigitChar_ne_plus {c : Char} (h : isDigitChar c = true) : c ≠ '+' := by
  intro hc
  subst hc
  simp [isDigitChar, decide_eq_true_eq] at h

/-! ### `pyStrip` lemmas -/

theorem dropWhile_append_of_all {p : Char → Bool} (a b : List Char)
    (ha : ∀ c ∈ a, p c = true) : List.dropWhile p (a ++ b) = List.dropWhile p b := by
  induction a with
  | nil => rfl
  | cons h t ih =>
    have hp : p h = true := ha h (by simp)
    simp only [List.cons_append, List.dropWhile_cons, hp, if_pos]
    exact ih (fun c hc => ha c (by simp [hc]))

theorem pyStrip_append_ws (l ws : List Char)
    (hws : ∀ c ∈ ws, isPySpace c = true)
    (hhead : ∃ c cs, l = c :: cs ∧ isPySpace c = false)
    (hlast : ∃ c cs, l.reverse = c :: cs ∧ isPySpace c = false) :
    pyStrip (l ++ ws) = l := by
  obtain ⟨c, cs, hl, hc⟩ := hhead
  obtain ⟨d, ds, hr, hd⟩ := hlast
  unfold pyStrip
  have h1 : List.dropWhile isPySpace (l ++ ws) = l ++ ws := by
    rw [hl, List.cons_append, List.dropWhile_cons, hc]
    simp
  rw [h1, List.reverse_append]
  have h2 : List.dropWhile isPySpace (ws.reverse ++ l.reverse) = List.dropWhile isPySpace l.reverse :=
    dropWhile_append_of_all _ _ (fun c hc => hws c (by simpa using hc))
  rw [h2, hr, List.dropWhile_cons, hd]
  simp [← hr]

theorem pyStrip_of_no_ws (l : List Char) (h : ∀ c ∈ l, isPySpace c = false) :
    pyStrip l = l := by
  unfold pyStrip
  have h1 : List.dropWhile isPySpace l = l := by
    cases l with
    | nil => rfl
    | cons c cs =>
      rw [List.dropWhile_cons, h c (by simp)]
      simp
  rw [h1]
  have h2 : List.dropWhile isPySpace l.reverse = l.reverse := by
    cases hr : l.reverse with
    | nil => rfl
    | cons c cs =>
      have hc : c ∈ l := by
        rw [← List.mem_reverse, hr]
        simp
      rw [List.dropWhile_cons, h c hc]
      simp
  rw [h2, List.reverse_reverse]

/-! ### `splitSep` lemmas -/

theorem splitSep_no_colon (l : List Char) (h : ∀ c ∈ l, c ≠ ':') : splitSep l = [l] := by
  induction l with
  | nil => rfl
  | cons c t ih =>
    cases t with
    | nil => rfl
    | cons d rest =>
      have hc : c ≠ ':' := h c (by simp)
      have ht : splitSep (d :: rest) = [d :: rest] := ih (fun x hx => h x (by simp [hx]))
      simp only [splitSep]
      rw [if_neg (by simp [hc])]
      rw [ht]

theorem splitSep_append_sep (a b : List Char) (ha : ∀ c ∈ a, c ≠ ':') :
    splitSep (a ++ ':' :: ' ' :: b) = a :: splitSep b := by
  induction a with
  | nil =>
    show splitSep (':' :: ' ' :: b) = [] :: splitSep b
    simp [splitSep]
  | cons c t ih =>
    have hc : c ≠ ':' := ha c (by simp)
    have ht := ih (fun x hx => ha x (by simp [hx]))
    cases t with
    | nil =>
      simp only [List.cons_append, List.nil_append, splitSep]
      rw [if_neg (by simp [hc])]
      simp
    | cons e t' =>
      simp only [List.cons_append, splitSep]
      rw [if_neg (by simp [hc])]
      simp only [List.cons_append] at ht
      simp only [List.append_eq]
      rw [ht]

/-! ### Decimal printing lemmas -/

theorem digitChar_toNat {d : Nat} (h : d < 10) : (digitChar d).toNat = 48 + d := by
  interval_cases d <;> rfl

theorem digitChar_isDigit {d : Nat} (h : d < 10) : isDigitChar (digitChar d) = true := by
  interval_cases d <;> rfl

theorem natDigitsAux_congr : ∀ f g n, n < f → n < g → natDigitsAux f n = natDigitsAux g n := by
  intro f
  induction f with
  | zero => omega
  | succ f ih =>
    intro g n hf hg
    cases g with
    | zero => omega
    | succ g =>
      simp only [natDigitsAux]
      by_cases h10 : n < 10
      · simp [h10]
      · rw [if_neg h10, if_neg h10]
        have hdiv : n / 10 < n := Nat.div_lt_self (by omega) (by omega)
        rw [ih g (n / 10) (by omega) (by omega)]

theorem natDigits_eq (n : Nat) :
    natDigits n = if n < 10 then [digitChar n] else natDigits (n / 10) ++ [digitChar (n % 10)] := by
  by_cases h10 : n < 10
  · rw [if_pos h10]
    show natDigitsAux (n + 1) n = _
    simp only [natDigitsAux]
    rw [if_pos h10]
  · rw [if_neg h10]
    show natDigitsAux (n + 1) n = natDigitsAux (n / 10 + 1) (n / 10) ++ [digitChar (n % 10)]
    have hdiv : n / 10 < n := Nat.div_lt_self (by omega) (by omega)
    have hstep : natDigitsAux (n + 1) n = natDigitsAux n (n / 10) ++ [digitChar (n % 10)] := by
      simp only [natDigitsAux]
      rw [if_neg h10]
    rw [hstep, natDigitsAux_congr n (n / 10 + 1) (n / 10) (by omega) (by omega)]

theorem natDigits_all_digit : ∀ n, ∀ c ∈ natDigits n, isDigitChar c = true := by
  intro n
  induction n using Nat.strong_induction_on with
  | _ n ih =>
    intro c hc
    rw [natDigits_eq] at hc
    by_cases h10 : n < 10
    · rw [if_pos h10] at hc
      simp at hc
      subst hc
      exact digitChar_isDigit h10
    · rw [if_neg h10] at hc
      rcases List.mem_append.mp hc with h | h
      · exact ih (n / 10) (Nat.div_lt_self (by omega) (by omega)) c h
      · simp at h
        subst h
        exact digitChar_isDigit (Nat.mod_lt n (by omega))

theorem natDigits_ne_nil (n : Nat) : natDigits n ≠ [] := by
  rw [natDigits_eq]
  by_cases h10 : n < 10
  · simp [h10]
  · simp [h10]

theorem digitsVal_natDigits : ∀ n, digitsVal (natDigits n) = n := by
  intro n
  induction n using Nat.strong_induction_on with
  | _ n ih =>
    rw [natDigits_eq]
    by_cases h10 : n < 10
    · rw [if_pos h10]
      simp only [digitsVal, List.foldl_cons, List.foldl_nil]
      rw [digitChar_toNat h10]
      omega
    · rw [if_neg h10]
      simp only [digitsVal, List.foldl_append, List.foldl_cons, List.foldl_nil]
      have hrec : digitsVal (natDigits (n / 10)) = n / 10 :=
        ih (n / 10) (Nat.div_lt_self (by omega) (by omega))
      simp only [digitsVal] at hrec
      rw [hrec, digitChar_toNat (Nat.mod_lt n (by omega))]
      omega

theorem pyInt_natDigits (n : Nat) : pyInt (natDigits n) = .ok (n : Int) := by
  have hall := natDigits_all_digit n
  have hstrip : pyStrip (natDigits n) = natDigits n :=
    pyStrip_of_no_ws _ (fun c hc => isDigitChar_not_space (hall c hc))
  obtain ⟨c, cs, hcons⟩ := List.exists_cons_of_ne_nil (natDigits_ne_nil n)
  have hcdig : isDigitChar c = true := hall c (by rw [hcons]; simp)
  unfold pyInt
  rw [hstrip, hcons]
  dsimp only
  rw [if_neg (isDigitChar_ne_minus hcdig), if_neg (isDigitChar_ne_plus hcdig)]
  rw [if_pos (by rw [← hcons]; exact List.all_eq_true.mpr hall)]
  have := digitsVal_natDigits n
  rw [hcons] at this
  rw [this]

/-! ### Frame decoding lemmas -/

theorem read_headers_go_no_nl (L : List Char) :
    ∀ (rest acc : List Char) (headers : Headers), (∀ c ∈ L, c ≠ '\n') →
      read_headers_go (L ++ rest) acc headers = read_headers_go rest (L.reverse ++ acc) headers := by
  induction L with
  | nil => intro rest acc headers _; simp
  | cons c t ih =>
    intro rest acc headers hL
    have hc : c ≠ '\n' := hL c (by simp)
    simp only [List.cons_append, read_headers_go]
    rw [if_neg hc]
    simp only [List.append_eq]
    rw [ih rest (c :: acc) headers (fun x hx => hL x (by simp [hx]))]
    simp

theorem read_headers_go_blank_lf (s : List Char) (headers : Headers) :
    read_headers_go ('\n' :: s) [] headers = .ok (headers, s) := by
  have h : pyStrip ['\n'] = [] := by decide
  simp [read_headers_go, h]

theorem read_headers_go_blank_crlf (s : List Char) (headers : Headers) :
    read_headers_go ('\r' :: '\n' :: s) [] headers = .ok (headers, s) := by
  have h1 : ('\r' = '\n') = False := by simp
  have h : pyStrip ['\r', '\n'] = [] := by decide
  simp [read_headers_go, h1, h]

theorem read_headers_encode_gen (v s r : List Char)
    (hv1 : v ≠ []) (hv : ∀ c ∈ v, isDigitChar c = true)
    (hr : r = [] ∨ r = ['\r']) :
    Server.read_headers ("Content-Length: ".toList ++ v ++ (r ++ '\n' :: (r ++ '\n' :: s)))
      = .ok ([("Content-Length".toList, v)], s) := by
  have hrw : ∀ c ∈ r, isPySpace c = true := by
    rcases hr with h | h <;> subst h <;> decide
  have hrn : ∀ c ∈ r, c ≠ '\n' := by
    rcases hr with h | h <;> subst h <;> decide
  have hCL : "Content-Length: ".toList = "Content-Length".toList ++ [':', ' '] := by decide
  have hCLn : ∀ c ∈ "Content-Length: ".toList, c ≠ '\n' := by decide
  have hshape : "Content-Length: ".toList ++ v ++ (r ++ '\n' :: (r ++ '\n' :: s))
      = ("Content-Length: ".toList ++ v ++ r) ++ '\n' :: (r ++ '\n' :: s) := by
    simp [List.append_assoc]
  unfold Server.read_headers
  rw [hshape]
  rw [read_headers_go_no_nl _ _ _ _ (by
    intro c hc
    simp only [List.mem_append] at hc
    rcases hc with (hc | hc) | hc
    · exact hCLn c hc
    · exact isDigitChar_ne_newline (hv c hc)
    · exact hrn c hc)]
  simp only [read_headers_go, if_true]
  have hrev : ('\n' :: (("Content-Length: ".toList ++ v ++ r).reverse ++ [])).reverse
      = ("Content-Length: ".toList ++ v) ++ (r ++ ['\n']) := by
    simp [List.append_assoc]
  rw [hrev]
  obtain ⟨e, es, hves⟩ := List.exists_cons_of_ne_nil (show v.reverse ≠ [] by
    simpa using hv1)
  have hstrip : pyStrip (("Content-Length: ".toList ++ v) ++ (r ++ ['\n']))
      = "Content-Length: ".toList ++ v := by
    apply pyStrip_append_ws
    · intro c hc
      simp only [List.mem_append] at hc
      rcases hc with hc | hc
      · exact hrw c hc
      · simp at hc
        subst hc
        decide
    · refine ⟨'C', "ontent-Length: ".toList ++ v, ?_, by decide⟩
      rw [show "Content-Length: ".toList = 'C' :: "ontent-Length: ".toList from by decide]
      simp
    · refine ⟨e, es ++ "Content-Length: ".toList.reverse, ?_, ?_⟩
      · rw [List.reverse_append, hves]
        simp
      · have he : e ∈ v := by
          rw [← List.mem_reverse, hves]
          simp
        exact isDigitChar_not_space (hv e he)
  rw [hstrip]
  rw [if_neg (by
    rw [hCL]
    simp [List.append_eq_nil])]
  have hsplit : splitSep ("Content-Length: ".toList ++ v) = ["Content-Length".toList, v] := by
    rw [hCL]
    have : "Content-Length".toList ++ [':', ' '] ++ v = "Content-Length".toList ++ ':' :: ' ' :: v := by
      simp
    rw [this, splitSep_append_sep _ _ (by decide),
      splitSep_no_colon v (fun c hc => isDigitChar_ne_colon (hv c hc))]
  rw [hsplit]
  show read_headers_go (r ++ '\n' :: s) [] (dictInsert [] "Content-Length".toList v) = _
  have hins : dictInsert ([] : Headers) "Content-Length".toList v = [("Content-Length".toList, v)] := rfl
  rw [hins]
  rcases hr with h | h
  · subst h
    simpa using read_headers_go_blank_lf s _
  · subst h
    simpa using read_headers_go_blank_crlf s _

theorem read_headers_handle_output (platform : String) (s : List Char) :
    Server.read_headers (Server.handle_output platform s)
      = .ok ([("Content-Length".toList, natDigits s.length)], s) := by
  unfold Server.handle_output newlines
  by_cases hp : platform = "win32"
  · rw [if_pos hp]
    have h2 : "\n\n".toList = ['\n', '\n'] := by decide
    have hsh : "Content-Length: ".toList ++ natDigits s.length ++ "\n\n".toList ++ s
        = "Content-Length: ".toList ++ natDigits s.length
          ++ (([] : List Char) ++ '\n' :: (([] : List Char) ++ '\n' :: s)) := by
      rw [h2]
      simp [List.append_assoc]
    rw [hsh]
    exact read_headers_encode_gen _ s [] (natDigits_ne_nil _) (natDigits_all_digit _) (Or.inl rfl)
  · rw [if_neg hp]
    have h2 : "\r\n\r\n".toList = ['\r', '\n', '\r', '\n'] := by decide
    have hsh : "Content-Length: ".toList ++ natDigits s.length ++ "\r\n\r\n".toList ++ s
        = "Content-Length: ".toList ++ natDigits s.length
          ++ (['\r'] ++ '\n' :: (['\r'] ++ '\n' :: s)) := by
      rw [h2]
      simp [List.append_assoc]
    rw [hsh]
    exact read_headers_encode_gen _ s ['\r'] (natDigits_ne_nil _) (natDigits_all_digit _) (Or.inr rfl)

theorem decode_frame_handle_output (platform : String) (s : List Char) :
    decode_frame (Server.handle_output platform s) = .ok ((s.length : Int), s, []) := by
  unfold decode_frame
  rw [read_headers_handle_output]
  dsimp only
  unfold getContentLength
  have hlk : dictLookup [("Content-Length".toList, natDigits s.length)] "Content-Length".toList
      = some (natDigits s.length) := by
    simp [dictLookup]
  rw [hlk]
  dsimp only
  rw [pyInt_natDigits]
  dsimp only
  unfold Server.read_content
  rw [if_neg (by omega)]
  have ht : ((s.length : Int)).toNat = s.length := by omega
  rw [ht, List.take_length, List.drop_length]

/-! ### Dispatch loop lemmas -/

theorem applyHandler_is_shutdown (h : Handler) (r : Request) (st : ServerState) :
    (applyHandler h r st).is_shutdown = (st.is_shutdown || decide (h = Handler.shutdown)) := by
  cases h <;>
    simp [applyHandler, Server.initializeOp, Server.shutdown, Server.exit, Server.echo, Server.wait]

theorem applyHandler_should_exit (h : Handler) (r : Request) (st : ServerState) :
    (applyHandler h r st).should_exit = (st.should_exit || decide (h = Handler.exit)) := by
  cases h <;>
    simp [applyHandler, Server.initializeOp, Server.shutdown, Server.exit, Server.echo, Server.wait]

theorem hasHandler_cons (target h : Handler) (l : List Handler) :
    hasHandler target (h :: l) = (decide (h = target) || hasHandler target l) := by
  by_cases hh : h = target <;> simp [hasHandler, hh]

theorem handle_input_requests_flags : ∀ (rs : List Request) (st : ServerState),
    ((handle_input_requests rs st).finalState.is_shutdown
        = (st.is_shutdown || hasHandler Handler.shutdown (handle_input_requests rs st).invoked))
    ∧ ((handle_input_requests rs st).finalState.should_exit
        = (st.should_exit || hasHandler Handler.exit (handle_input_requests rs st).invoked)) := by
  intro rs
  induction rs with
  | nil =>
    intro st
    simp [handle_input_requests, LoopOutcome.finalState, LoopOutcome.invoked, hasHandler]
  | cons r rs ih =>
    intro st
    simp only [handle_input_requests]
    cases hfound : dictLookup st.dispatcher r.method with
    | none =>
      dsimp only
      by_cases hexit : st.should_exit
      · rw [if_pos hexit]
        simp [LoopOutcome.finalState, LoopOutcome.invoked, hasHandler]
      · rw [if_neg hexit]
        exact ih st
    | some h =>
      dsimp only
      by_cases hexit : (applyHandler h r st).should_exit
      · rw [if_pos hexit]
        simp only [LoopOutcome.finalState, LoopOutcome.invoked]
        rw [hasHandler_cons, hasHandler_cons]
        simp only [hasHandler]
        constructor
        · rw [applyHandler_is_shutdown]
          simp
        · rw [applyHandler_should_exit]
          simp
      · rw [if_neg hexit]
        cases hrec : handle_input_requests rs (applyHandler h r st) with
        | exited c2 s2 i2 =>
          have := ih (applyHandler h r st)
          rw [hrec] at this
          simp only [LoopOutcome.finalState, LoopOutcome.invoked] at this ⊢
          rw [hasHandler_cons, hasHandler_cons]
          constructor
          · rw [this.1, applyHandler_is_shutdown]
            simp [Bool.or_assoc]
          · rw [this.2, applyHandler_should_exit]
            simp [Bool.or_assoc]
        | ranOut s2 i2 =>
          have := ih (applyHandler h r st)
          rw [hrec] at this
          simp only [LoopOutcome.finalState, LoopOutcome.invoked] at this ⊢
          rw [hasHandler_cons, hasHandler_cons]
          constructor
          · rw [this.1, applyHandler_is_shutdown]
            simp [Bool.or_assoc]
          · rw [this.2, applyHandler_should_exit]
            simp [Bool.or_assoc]

theorem handle_input_requests_exited : ∀ (rs : List Request) (st : ServerState)
    (code : Nat) (stf : ServerState) (inv : List Handler),
    handle_input_requests rs st = .exited code stf inv →
    code = (if stf.is_shutdown = true then 0 else 1) ∧ stf.should_exit = true := by
  intro rs
  induction rs with
  | nil =>
    intro st code stf inv h
    simp [handle_input_requests] at h
  | cons r rs ih =>
    intro st code stf inv h
    simp only [handle_input_requests] at h
    cases hfound : dictLookup st.dispatcher r.method with
    | none =>
      rw [hfound] at h
      dsimp only at h
      by_cases hexit : st.should_exit
      · rw [if_pos hexit] at h
        cases h
        exact ⟨rfl, hexit⟩
      · rw [if_neg hexit] at h
        exact ih st code stf inv h
    | some hd =>
      rw [hfound] at h
      dsimp only at h
      by_cases hexit : (applyHandler hd r st).should_exit
      · rw [if_pos hexit] at h
        cases h
        exact ⟨rfl, hexit⟩
      · rw [if_neg hexit] at h
        cases hrec : handle_input_requests rs (applyHandler hd r st) with
        | exited c2 s2 i2 =>
          rw [hrec] at h
          cases h
          exact ih _ _ _ _ hrec
        | ranOut s2 i2 =>
          rw [hrec] at h
          cases h

/-! ### Dispatcher registration lemmas -/

theorem initialize_dispatcher_lookup (d : Dispatcher) :
    dictLookup (Server.initialize_dispatcher d) "connection/connect" = some Handler.connect
    ∧ dictLookup (Server.initialize_dispatcher d) "connection/disconnect" = some Handler.disconnect
    ∧ dictLookup (Server.initialize_dispatcher d) "shutdown" = some Handler.shutdown
    ∧ dictLookup (Server.initialize_dispatcher d) "exit" = some Handler.exit
    ∧ dictLookup (Server.initialize_dispatcher d) "echo" = some Handler.echo
    ∧ dictLookup (Server.initialize_dispatcher d) "version" = some Handler.version
    ∧ dictLookup (Server.initialize_dispatcher d) "capabilities/list" = some Handler.capabilities
    ∧ dictLookup (Server.initialize_dispatcher d) "wait" = some Handler.wait := by
  refine ⟨?_, ?_, ?_, ?_, ?_, ?_, ?_, ?_⟩ <;>
    simp only [Server.initialize_dispatcher] <;>
    simp [dictLookup_insert_ne, dictLookup_insert_self]

theorem initialize_dispatcher_idem (d : Dispatcher) :
    Server.initialize_dispatcher (Server.initialize_dispatcher d) = Server.initialize_dispatcher d := by
  obtain ⟨h1, h2, h3, h4, h5, h6, h7, h8⟩ := initialize_dispatcher_lookup d
  show dictInsert (dictInsert (dictInsert (dictInsert (dictInsert (dictInsert (dictInsert (dictInsert
    (Server.initialize_dispatcher d)
    "connection/connect" Handler.connect)
    "connection/disconnect" Handler.disconnect)
    "shutdown" Handler.shutdown)
    "exit" Handler.exit)
    "echo" Handler.echo)
    "version" Handler.version)
    "capabilities/list" Handler.capabilities)
    "wait" Handler.wait = Server.initialize_dispatcher d
  rw [dictInsert_of_lookup _ _ _ h1, dictInsert_of_lookup _ _ _ h2,
    dictInsert_of_lookup _ _ _ h3, dictInsert_of_lookup _ _ _ h4,
    dictInsert_of_lookup _ _ _ h5, dictInsert_of_lookup _ _ _ h6,
    dictInsert_of_lookup _ _ _ h7, dictInsert_of_lookup _ _ _ h8]

/-! ### A reusable single-line decoding lemma -/

theorem reverse_append_right_ne (u c : List Char) (hc : c ≠ []) :
    ∃ e es, (u ++ c).reverse = e :: es ∧ e ∈ c := by
  obtain ⟨e, es, hce⟩ := List.exists_cons_of_ne_nil (show c.reverse ≠ [] by simpa using hc)
  refine ⟨e, es ++ u.reverse, ?_, ?_⟩
  · rw [List.reverse_append, hce]
    simp
  · rw [← List.mem_reverse, hce]
    simp

theorem read_headers_go_line (line rest : List Char) (headers : Headers)
    (hnl : ∀ ch ∈ line, ch ≠ '\n')
    (hstrip : pyStrip (line ++ ['\n']) = line)
    (hne : line ≠ [])
    (p0 p1 : List Char) (ptail : List (List Char))
    (hsplit : splitSep line = p0 :: p1 :: ptail) :
    read_headers_go (line ++ '\n' :: rest) [] headers
      = read_headers_go rest [] (dictInsert headers p0 p1) := by
  rw [read_headers_go_no_nl line ('\n' :: rest) [] headers hnl]
  simp only [read_headers_go, if_true]
  have hrev : ('\n' :: (line.reverse ++ [])).reverse = line ++ ['\n'] := by simp
  rw [hrev, hstrip, if_neg hne, hsplit]

/-! ### Claims -/

/-- C1: whenever the server loop observes the exit flag set after processing a
frame, the process terminates with exit code 0 exactly when the shutdown
handler was invoked at an earlier point of the run (equivalently,
`is_shutdown` is true), and with exit code 1 exactly when it was not; the
exit handler itself was necessarily invoked during the run. -/
theorem c1_exit_code_contract (rs : List Request) (st : ServerState)
    (code : Nat) (stf : ServerState) (inv : List Handler)
    (hsd : st.is_shutdown = false) (hse : st.should_exit = false)
    (hrun : handle_input_requests rs st = .exited code stf inv) :
    Handler.exit ∈ inv ∧ (code = 0 ↔ Handler.shutdown ∈ inv)
      ∧ (code = 1 ↔ Handler.shutdown ∉ inv) := by
  have hflags := handle_input_requests_flags rs st
  rw [hrun] at hflags
  simp only [LoopOutcome.finalState, LoopOutcome.invoked] at hflags
  obtain ⟨hc, hsx⟩ := handle_input_requests_exited rs st code stf inv hrun
  have hshut : stf.is_shutdown = hasHandler Handler.shutdown inv := by
    rw [hflags.1, hsd]
    simp
  have hexit2 : hasHandler Handler.exit inv = true := by
    have h2 := hflags.2
    rw [hsx, hse] at h2
    simpa using h2.symm
  refine ⟨(hasHandler_iff_mem _ _).mp hexit2, ?_⟩
  by_cases hh : hasHandler Handler.shutdown inv = true
  · have hmem := (hasHandler_iff_mem _ _).mp hh
    have hs' : stf.is_shutdown = true := by rw [hshut]; exact hh
    rw [hc, if_pos hs']
    exact ⟨⟨fun _ => hmem, fun _ => rfl⟩,
      ⟨fun h01 => absurd h01 (by omega), fun hn => absurd hmem hn⟩⟩
  · have hnmem : Handler.shutdown ∉ inv := fun hm => hh ((hasHandler_iff_mem _ _).mpr hm)
    have hs' : stf.is_shutdown = false := by
      rw [hshut]
      simpa using hh
    rw [hc, if_neg (by rw [hs']; exact Bool.false_ne_true)]
    exact ⟨⟨fun h10 => absurd h10 (by omega), fun hm => absurd hm hnmem⟩,
      ⟨fun _ => hnmem, fun _ => rfl⟩⟩

/-- Witness for C1: from a fresh server, the run `initialize; shutdown; exit`
terminates with exit code 0, and the trace contains the shutdown handler. -/
theorem c1_witness :
    Handler.exit ∈ [Handler.initializeH, Handler.shutdown, Handler.exit]
    ∧ (0 = 0 ↔ Handler.shutdown ∈ [Handler.initializeH, Handler.shutdown, Handler.exit])
    ∧ (0 = 1 ↔ Handler.shutdown ∉ [Handler.initializeH, Handler.shutdown, Handler.exit]) :=
  c1_exit_code_contract
    [⟨"initialize", []⟩, ⟨"shutdown", []⟩, ⟨"exit", []⟩]
    initialServer 0
    { is_shutdown := true, should_exit := true, threads := [],
      dispatcher := Server.initialize_dispatcher initialServer.dispatcher, output := [] }
    [Handler.initializeH, Handler.shutdown, Handler.exit]
    rfl rfl (by decide)

/-- C2: encoding any body with the frame encoder and decoding the produced
bytes with the frame decoder (`read_headers` followed by `read_content` of
the declared `Content-Length`) yields back exactly the body, and the
recovered `Content-Length` equals the body's length in bytes; the stream is
consumed exactly. -/
theorem c2_framing_roundtrip (platform : String) (s : List Char) :
    decode_frame (Server.handle_output platform s) = .ok ((s.length : Int), s, []) :=
  decode_frame_handle_output platform s

/-- C3 counterexample: the claim says the encoder writes CRLF-pairs on
Windows hosts and LF-pairs elsewhere; the code does the opposite — on
`win32` the frame for body `"x"` uses `"\n\n"`, not `"\r\n\r\n"`, and on a
non-Windows platform it uses `"\r\n\r\n"`. -/
theorem c3_counterexample :
    Server.handle_output "win32" ['x'] = "Content-Length: 1\n\nx".toList
    ∧ Server.handle_output "linux" ['x'] = "Content-Length: 1\r\n\r\nx".toList
    ∧ "Content-Length: 1\n\nx".toList ≠ "Content-Length: 1\r\n\r\nx".toList := by
  refine ⟨?_, ?_, ?_⟩ <;> decide

/-- C3 (amended): the blank-line terminator written between the
`Content-Length` header and the body consists of two LF characters on
Windows hosts (`sys.platform == 'win32'`) and of two CRLF sequences on
non-Windows hosts — the reverse of each host's native convention. -/
theorem c3_terminator_amended (platform : String) (s : List Char) :
    (platform = "win32" →
      Server.handle_output platform s
        = "Content-Length: ".toList ++ natDigits s.length ++ '\n' :: '\n' :: s)
    ∧ (platform ≠ "win32" →
      Server.handle_output platform s
        = "Content-Length: ".toList ++ natDigits s.length ++ '\r' :: '\n' :: '\r' :: '\n' :: s) := by
  constructor
  · intro hp
    unfold Server.handle_output newlines
    rw [if_pos hp]
    have h2 : "\n\n".toList = ['\n', '\n'] := by decide
    rw [h2]
    simp
  · intro hp
    unfold Server.handle_output newlines
    rw [if_neg hp]
    have h2 : "\r\n\r\n".toList = ['\r', '\n', '\r', '\n'] := by decide
    rw [h2]
    simp

/-- Witness for the amended C3, at body `"x"` on each kind of host. -/
theorem c3_terminator_amended_witness :
    Server.handle_output "win32" ['x']
      = "Content-Length: ".toList ++ natDigits 1 ++ '\n' :: '\n' :: ['x']
    ∧ Server.handle_output "linux" ['x']
      = "Content-Length: ".toList ++ natDigits 1 ++ '\r' :: '\n' :: '\r' :: '\n' :: ['x'] :=
  ⟨(c3_terminator_amended "win32" ['x']).1 rfl,
   (c3_terminator_amended "linux" ['x']).2 (by decide)⟩

/-- C4: on a freshly constructed server every domain method is unresolvable
("method not found"), the only resolvable method is `initialize`, and after
`initialize_dispatcher` has run every domain method resolves to a bound
handler. -/
theorem c4_handshake_gating :
    (∀ m ∈ domainMethods, dictLookup initialServer.dispatcher m = none)
    ∧ (∀ (m : String) (h : Handler), dictLookup initialServer.dispatcher m = some h →
        m = "initialize" ∧ h = Handler.initializeH)
    ∧ (∀ m ∈ domainMethods,
        (dictLookup (Server.initialize_dispatcher initialServer.dispatcher) m).isSome = true) := by
  refine ⟨by decide, ?_, by decide⟩
  intro m h hl
  simp only [initialServer, dictInsert, dictLookup] at hl
  by_cases hm : "initialize" = m
  · rw [if_pos hm] at hl
    cases hl
    exact ⟨hm.symm, rfl⟩
  · rw [if_neg hm] at hl
    cases hl

/-- Witness for C4, at the method `connection/connect` and at the one
resolvable pre-initialize entry. -/
theorem c4_witness :
    dictLookup initialServer.dispatcher "connection/connect" = none
    ∧ ("initialize" = "initialize" ∧ Handler.initializeH = Handler.initializeH)
    ∧ (dictLookup (Server.initialize_dispatcher initialServer.dispatcher)
        "connection/connect").isSome = true :=
  ⟨c4_handshake_gating.1 "connection/connect" (by decide),
   c4_handshake_gating.2.1 "initialize" Handler.initializeH (by decide),
   c4_handshake_gating.2.2 "connection/connect" (by decide)⟩

/-- C5: invoking `initialize` twice on the same server leaves the dispatch
table exactly as one invocation leaves it (same entries, same order, same
handlers), and the capability result of the second call is identical to the
result of the first call. -/
theorem c5_initialize_idempotent (st : ServerState) (p q : InitializeParams) :
    ((Server.initializeOp q (Server.initializeOp p st).1).1).dispatcher
        = ((Server.initializeOp p st).1).dispatcher
    ∧ (Server.initializeOp q (Server.initializeOp p st).1).2 = (Server.initializeOp p st).2 := by
  constructor
  · show Server.initialize_dispatcher (Server.initialize_dispatcher st.dispatcher)
        = Server.initialize_dispatcher st.dispatcher
    exact initialize_dispatcher_idem st.dispatcher
  · rfl

/-- C6: when the header block of the current frame lacks a `Content-Length`
entry or its value is not numeric, `handle_input` fails with that error at
once — the error propagates out of the loop (for any remaining fuel and any
behaviour of the JSON-RPC layer) and no subsequent frame is processed. -/
theorem c6_framing_error_fatal (rpc : List Char → ServerState → ServerState)
    (fuel : Nat) (stream : List Char) (st : ServerState)
    (headers : Headers) (rest : List Char) (e : FrameErr)
    (hh : Server.read_headers stream = .ok (headers, rest))
    (he : getContentLength headers = .error e) :
    Server.handle_input rpc (fuel + 1) stream st = .error e := by
  simp only [Server.handle_input]
  rw [hh]
  dsimp only
  rw [he]

/-- Witness for C6: a frame whose only header is `Foo: 3` has no
`Content-Length`, so the loop fails with a `KeyError` without touching the
rest of the stream. -/
theorem c6_witness :
    Server.handle_input (fun _ st => st) 1 ("Foo: 3\n\nxyz".toList) initialServer
      = .error FrameErr.keyError :=
  c6_framing_error_fatal (fun _ st => st) 0 ("Foo: 3\n\nxyz".toList) initialServer
    [("Foo".toList, "3".toList)] ("xyz".toList) FrameErr.keyError (by rfl) (by rfl)

/-- C7 counterexample: the claim says `wait` drains the thread set; it does
not — after registering thread `1` and calling `wait`, the tracked set still
holds `1`. -/
theorem c7_wait_counterexample :
    ((Server.wait (Server.register_thread 1 initialServer)).1).threads = [1]
    ∧ ([1] : List Nat) ≠ [] := by
  exact ⟨rfl, by decide⟩

/-- C7 (amended): `wait` joins every tracked handle (the join sequence is
exactly the tracked set, in order) and returns with the server state — in
particular the thread set — unchanged; `register_thread` grows the set by
one handle when the handle is not already tracked. -/
theorem c7_wait_amended (st : ServerState) (t : Nat) :
    (Server.wait st).2 = st.threads
    ∧ (Server.wait st).1 = st
    ∧ (t ∉ st.threads → (Server.register_thread t st).threads = st.threads ++ [t]) := by
  refine ⟨rfl, rfl, ?_⟩
  intro ht
  simp [Server.register_thread, ht]

/-- Witness for the amended C7, at a fresh server and handle `5`. -/
theorem c7_wait_amended_witness :
    (Server.wait initialServer).2 = initialServer.threads
    ∧ (Server.wait initialServer).1 = initialServer
    ∧ (Server.register_thread 5 initialServer).threads = initialServer.threads ++ [5] :=
  ⟨(c7_wait_amended initialServer 5).1, (c7_wait_amended initialServer 5).2.1,
   (c7_wait_amended initialServer 5).2.2 (by decide)⟩

/-- C8 counterexample: the claim says a header value containing `": "` is
stored whole (everything after the first separator); on the line
`X: a: b` the decoder stores only `a`, not `a: b`. -/
theorem c8_split_counterexample :
    Server.read_headers ("X: a: b\n\n".toList) = .ok ([("X".toList, "a".toList)], [])
    ∧ "a".toList ≠ "a: b".toList := by
  exact ⟨rfl, by decide⟩

/-- C8 (amended): each non-empty header line is split on every occurrence of
`": "` and the stored value is `parts[1]`, the segment between the first and
second separator — a value that itself contains `": "` is truncated at its
first internal separator (the remainder is discarded). -/
theorem c8_split_amended (a b c rest : List Char)
    (ha1 : a ≠ []) (hb1 : b ≠ []) (hc1 : c ≠ [])
    (hgood : ∀ ch ∈ a ++ b ++ c, isPySpace ch = false ∧ ch ≠ ':') :
    Server.read_headers (a ++ ':' :: ' ' :: (b ++ ':' :: ' ' :: (c ++ '\n' :: '\n' :: rest)))
      = .ok ([(a, b)], rest) := by
  have hg : ∀ ch, (ch ∈ a ∨ ch ∈ b ∨ ch ∈ c) → isPySpace ch = false ∧ ch ≠ ':' := by
    intro ch h
    apply hgood
    rcases h with h | h | h <;> simp [h]
  have hsh1 : a ++ ':' :: ' ' :: (b ++ ':' :: ' ' :: (c ++ '\n' :: '\n' :: rest))
      = (a ++ ':' :: ' ' :: (b ++ ':' :: ' ' :: c)) ++ '\n' :: ('\n' :: rest) := by
    simp
  have hnl : ∀ ch ∈ a ++ ':' :: ' ' :: (b ++ ':' :: ' ' :: c), ch ≠ '\n' := by
    intro ch hch
    rcases List.mem_append.mp hch with h | h
    · exact not_space_ne_newline (hg ch (Or.inl h)).1
    · cases h with
      | head => decide
      | tail _ h2 =>
        cases h2 with
        | head => decide
        | tail _ h3 =>
          rcases List.mem_append.mp h3 with h4 | h4
          · exact not_space_ne_newline (hg ch (Or.inr (Or.inl h4))).1
          · cases h4 with
            | head => decide
            | tail _ h5 =>
              cases h5 with
              | head => decide
              | tail _ h6 => exact not_space_ne_newline (hg ch (Or.inr (Or.inr h6))).1
  obtain ⟨x, xs, hax⟩ := List.exists_cons_of_ne_nil ha1
  have hstrip : pyStrip ((a ++ ':' :: ' ' :: (b ++ ':' :: ' ' :: c)) ++ ['\n'])
      = a ++ ':' :: ' ' :: (b ++ ':' :: ' ' :: c) := by
    apply pyStrip_append_ws
    · decide
    · refine ⟨x, xs ++ ':' :: ' ' :: (b ++ ':' :: ' ' :: c), ?_,
        (hg x (Or.inl (by rw [hax]; simp))).1⟩
      rw [hax]
      simp
    · have hshape2 : a ++ ':' :: ' ' :: (b ++ ':' :: ' ' :: c)
          = (a ++ ':' :: ' ' :: (b ++ [':', ' '])) ++ c := by
        simp
      rw [hshape2]
      obtain ⟨e, es, hees, hemem⟩ := reverse_append_right_ne _ c hc1
      exact ⟨e, es, hees, (hg e (Or.inr (Or.inr hemem))).1⟩
  have hne : a ++ ':' :: ' ' :: (b ++ ':' :: ' ' :: c) ≠ [] := by
    rw [hax]
    simp
  have hsplit : splitSep (a ++ ':' :: ' ' :: (b ++ ':' :: ' ' :: c)) = [a, b, c] := by
    rw [splitSep_append_sep a _ (fun ch hch => (hg ch (Or.inl hch)).2)]
    rw [splitSep_append_sep b _ (fun ch hch => (hg ch (Or.inr (Or.inl hch))).2)]
    rw [splitSep_no_colon c (fun ch hch => (hg ch (Or.inr (Or.inr hch))).2)]
  unfold Server.read_headers
  rw [hsh1]
  rw [read_headers_go_line _ _ _ hnl hstrip hne a b [c] hsplit]
  have hins : dictInsert ([] : Headers) a b = [(a, b)] := rfl
  rw [hins]
  exact read_headers_go_blank_lf rest _

/-- Witness for the amended C8: the line `X: a: b` stores `a` under `X`. -/
theorem c8_split_amended_witness :
    Server.read_headers
        ("X".toList ++ ':' :: ' ' :: ("a".toList ++ ':' :: ' ' :: ("b".toList ++ '\n' :: '\n' :: [])))
      = .ok ([("X".toList, "a".toList)], []) :=
  c8_split_amended "X".toList "a".toList "b".toList []
    (by decide) (by decide) (by decide) (by decide)

/-- C9: the result of `initialize` is independent of every parameter — the
whole call (state effect and returned capability descriptor) is the same for
any two argument tuples, because the arguments are never read. -/
theorem c9_initialize_params_independent (p q : InitializeParams) (st : ServerState) :
    Server.initializeOp p st = Server.initializeOp q st := rfl

/-- C10: the lifecycle flags are monotone.  Both flags are false at
construction; `shutdown` sets `is_shutdown` and leaves `should_exit` alone;
`exit` sets `should_exit` and leaves `is_shutdown` alone; `initialize`,
`wait`, `register_thread`, `echo`, `send_event` and `handle_output` leave
both flags exactly as they were; and across a whole server-loop run each
final flag is the initial flag OR-ed with whether the corresponding handler
was invoked — no operation ever resets a flag to false. -/
theorem c10_flags_monotone :
    (initialServer.is_shutdown = false ∧ initialServer.should_exit = false)
    ∧ (∀ (p : InitializeParams) (st : ServerState),
        (Server.initializeOp p st).1.is_shutdown = st.is_shutdown
        ∧ (Server.initializeOp p st).1.should_exit = st.should_exit)
    ∧ (∀ st : ServerState, (Server.shutdown st).is_shutdown = true
        ∧ (Server.shutdown st).should_exit = st.should_exit)
    ∧ (∀ st : ServerState, (Server.exit st).should_exit = true
        ∧ (Server.exit st).is_shutdown = st.is_shutdown)
    ∧ (∀ st : ServerState, (Server.wait st).1 = st)
    ∧ (∀ (t : Nat) (st : ServerState),
        (Server.register_thread t st).is_shutdown = st.is_shutdown
        ∧ (Server.register_thread t st).should_exit = st.should_exit)
    ∧ (∀ (arg : List Char) (st : ServerState),
        (Server.echo arg st).is_shutdown = st.is_shutdown
        ∧ (Server.echo arg st).should_exit = st.should_exit)
    ∧ (∀ (platform : String) (nm pr : List Char) (st : ServerState),
        (Server.send_event platform nm pr st).is_shutdown = st.is_shutdown
        ∧ (Server.send_event platform nm pr st).should_exit = st.should_exit)
    ∧ (∀ (platform : String) (out : List Char) (st : ServerState),
        (Server.handle_output_st platform out st).is_shutdown = st.is_shutdown
        ∧ (Server.handle_output_st platform out st).should_exit = st.should_exit)
    ∧ (∀ (rs : List Request) (st : ServerState),
        (handle_input_requests rs st).finalState.is_shutdown
          = (st.is_shutdown || hasHandler Handler.shutdown (handle_input_requests rs st).invoked)
        ∧ (handle_input_requests rs st).finalState.should_exit
          = (st.should_exit || hasHandler Handler.exit (handle_input_requests rs st).invoked)) := by
  refine ⟨⟨rfl, rfl⟩, ?_, ?_, ?_, ?_, ?_, ?_, ?_, ?_, ?_⟩ <;> intros <;>
    first
      | exact ⟨rfl, rfl⟩
      | exact rfl
      | exact handle_input_requests_flags _ _
